import Mathlib

/-!
Verification of the market-data transformation pipeline of the crypto
dashboard (`src/app.py`): the OHLC synthesizer, the indicator engine
(simple and exponential moving averages), the historical series builder
and the live series aggregator.  Prices and volumes are modelled as
rationals, timestamps as naturals.
-/

/-! ### Live series aggregator (`update_live`, `get_live_price`) -/

/-- One asset's live buffer: the append-only list of (time, price) samples
(`live_data[coin_id]` in the source). -/
abbrev LiveBuffer := List (ℕ × ℚ)

/-- Value of a time-indexed series at timestamp `t` (pandas label lookup when a
series is reindexed onto another index; the source series has strictly
increasing timestamps, so the first match is the only one). -/
def lookupTime (t : ℕ) (buf : LiveBuffer) : Option ℚ :=
  (buf.find? (fun p => p.1 == t)).map Prod.snd

/-- The plotted table `df_plot`: a row index of timestamps and one column of
optional prices per asset, in assignment order. -/
structure AlignedLiveTable where
  rowIndex : List ℕ
  cols : List (String × List (Option ℚ))
deriving DecidableEq

/-- Pandas column assignment `df_plot[coin_id] = df_temp`: if the frame is
still empty and the assigned series is not, the series' index becomes the
frame's index; otherwise the series is reindexed onto the existing row index,
values at labels outside it being dropped and missing labels left absent. -/
def assignColumn (t : AlignedLiveTable) (name : String) (buf : LiveBuffer) :
    AlignedLiveTable :=
  if t.rowIndex = [] ∧ buf ≠ [] then
    { rowIndex := buf.map Prod.fst
      cols := t.cols.map (fun c => (c.1, buf.map (fun _ => (none : Option ℚ))))
        ++ [(name, buf.map (fun p => some p.2))] }
  else
    { rowIndex := t.rowIndex
      cols := t.cols ++ [(name, t.rowIndex.map (fun ts => lookupTime ts buf))] }

/-- The table `update_live` builds on a tick: starting from an empty frame,
assign one column per asset that produced a price this tick, each column being
that asset's whole buffer as a time-indexed series. -/
def buildTable (buffers : List (String × LiveBuffer)) : AlignedLiveTable :=
  buffers.foldl (fun t ab => assignColumn t ab.1 ab.2) ⟨[], []⟩

/-- Model of `get_live_price`: `none` models a network failure or exception; otherwise
the HTTP status and the (optional) price found in the response body.  A
non-200 status or a missing price yields `none`. -/
def get_live_price (resp : Option (ℕ × Option ℚ)) : Option ℚ :=
  match resp with
  | none => none
  | some (status, body) => if status ≠ 200 then none else body

/-- Python truthiness of the fetched price (`if price:`): `None` and `0` are
falsy, every other number is truthy. -/
def truthy (p : Option ℚ) : Bool :=
  match p with
  | none => false
  | some q => decide (q ≠ 0)

/-- The per-asset buffer update inside `update_live`: fetch the price and, if
it is truthy, append `{time: now, price: price}` to the asset's buffer. -/
def tickBuffer (now : ℕ) (resp : Option (ℕ × Option ℚ)) (buf : LiveBuffer) :
    LiveBuffer :=
  let price := get_live_price resp
  if truthy price then buf ++ [(now, price.getD 0)] else buf

/-! ### OHLC synthesizer and indicator engine (`get_historical_data`) -/

/-- Column `df["open"] = df["price"].shift(1)`: shift down by one, missing at 0. -/
def shift1 (xs : List ℚ) : List (Option ℚ) :=
  (List.range xs.length).map (fun i => if i = 0 then none else xs[i - 1]?)

/-- Column `df["close"] = df["price"]`. -/
def closeSeq (xs : List ℚ) : List ℚ := xs

/-- Column `df["high"] = df["price"].rolling(2).max()`: max of each 2-sample trailing
window, missing at index 0. -/
def rolling2max (xs : List ℚ) : List (Option ℚ) :=
  (List.range xs.length).map (fun i =>
    if i = 0 then none else
      match xs[i - 1]?, xs[i]? with
      | some a, some b => some (max a b)
      | _, _ => none)

/-- Column `df["low"] = df["price"].rolling(2).min()`. -/
def rolling2min (xs : List ℚ) : List (Option ℚ) :=
  (List.range xs.length).map (fun i =>
    if i = 0 then none else
      match xs[i - 1]?, xs[i]? with
      | some a, some b => some (min a b)
      | _, _ => none)

/-- Column `df["close"].rolling(w).mean()`: mean of the trailing `w`-sample window,
missing while fewer than `w` samples exist. -/
def rollingMean (w : ℕ) (xs : List ℚ) : List (Option ℚ) :=
  (List.range xs.length).map (fun i =>
    if i + 1 < w then none
    else some (((xs.drop (i + 1 - w)).take w).sum / (w : ℚ)))

/-- Recursive smoothing underlying `ewm(..., adjust=False).mean()`:
each output is `α·x + (1-α)·previous`. -/
def emaAux (α : ℚ) (prev : ℚ) : List ℚ → List ℚ
  | [] => []
  | x :: xs =>
    let y := α * x + (1 - α) * prev
    y :: emaAux α y xs

/-- Column `df["close"].ewm(span=s, adjust=False).mean()`: seeded with the first
observation, smoothing factor `α = 2/(s+1)`. -/
def ewmMean (span : ℕ) (xs : List ℚ) : List ℚ :=
  match xs with
  | [] => []
  | x :: rest => x :: emaAux (2 / ((span : ℚ) + 1)) x rest

/-- Column `df["volume"] = pd.DataFrame(volumes, ...)["volume"]`: the volume series
is aligned positionally onto the price frame's range index of length `n`;
entries past the end of the volume series are missing, extra entries are
dropped. -/
def alignVolume (n : ℕ) (vs : List ℚ) : List (Option ℚ) :=
  (List.range n).map (fun i => vs[i]?)

/-! ### Historical series builder (`get_historical_data`, `all_hist_data`) -/

/-- A historical market-chart response: HTTP status and the two optional
fields `prices` and `total_volumes`, each a list of (timestamp, value) pairs.
The whole response is wrapped in `Option` at the call site, `none` modelling
an unreachable source (exception). -/
structure HistResponse where
  status : ℕ
  prices : Option (List (ℕ × ℚ))
  total_volumes : Option (List (ℕ × ℚ))
deriving DecidableEq

/-- The per-asset table built by `get_historical_data`: the candle columns,
the positionally aligned volume column, and the indicator columns that are
present only when their toggle is on. -/
structure HistDF where
  time : List ℕ
  open_ : List (Option ℚ)
  close : List ℚ
  high : List (Option ℚ)
  low : List (Option ℚ)
  volume : List (Option ℚ)
  ma7 : Option (List (Option ℚ))
  ma25 : Option (List (Option ℚ))
  ema12 : Option (List ℚ)
  ema26 : Option (List ℚ)
deriving DecidableEq

/-- Model of `get_historical_data`: `none` when the source is unreachable, the status
is not 200, or either required field is absent; otherwise the full table. -/
def get_historical_data (show_ma show_ema : Bool) (resp : Option HistResponse) :
    Option HistDF :=
  match resp with
  | none => none
  | some r =>
    if r.status ≠ 200 then none
    else
      match r.prices, r.total_volumes with
      | some ps, some tvs =>
        let prices := ps.map Prod.snd
        some
          { time := ps.map Prod.fst
            open_ := shift1 prices
            close := closeSeq prices
            high := rolling2max prices
            low := rolling2min prices
            volume := alignVolume prices.length (tvs.map Prod.snd)
            ma7 := if show_ma then some (rollingMean 7 prices) else none
            ma25 := if show_ma then some (rollingMean 25 prices) else none
            ema12 := if show_ema then some (ewmMean 12 prices) else none
            ema26 := if show_ema then some (ewmMean 26 prices) else none }
      | _, _ => none

/-- The `all_hist_data` loop: fetch each selected asset in order and keep only
those whose fetch produced a table. -/
def all_hist_data (show_ma show_ema : Bool) (fetch : String → Option HistResponse)
    (assets : List String) : List (String × HistDF) :=
  assets.filterMap (fun a =>
    (get_historical_data show_ma show_ema (fetch a)).map (fun d => (a, d)))

/-! ### Helper lemmas -/

theorem range_map_getElem (f : ℕ → Option ℚ) (n i : ℕ) (h : i < n) :
    ((List.range n).map f)[i]? = some (f i) := by
  simp [List.getElem?_map, List.getElem?_range, h]

theorem ohlc_head (P : List ℚ) (hne : P ≠ []) :
    (shift1 P)[0]? = some none ∧ (rolling2max P)[0]? = some none ∧
      (rolling2min P)[0]? = some none := by
  have h0 : 0 < P.length := List.length_pos.mpr hne
  refine ⟨?_, ?_, ?_⟩ <;>
    simp [shift1, rolling2max, rolling2min, range_map_getElem _ _ _ h0]

theorem ohlc_cells (P : List ℚ) (i : ℕ) (a b : ℚ)
    (h1 : P[i]? = some a) (h2 : P[i + 1]? = some b) :
    (closeSeq P)[i + 1]? = some b ∧
    (shift1 P)[i + 1]? = some (some a) ∧
    (rolling2max P)[i + 1]? = some (some (max a b)) ∧
    (rolling2min P)[i + 1]? = some (some (min a b)) := by
  have hlt : i + 1 < P.length := (List.getElem?_eq_some.mp h2).1
  refine ⟨h2, ?_, ?_, ?_⟩ <;>
    simp [shift1, rolling2max, rolling2min, range_map_getElem _ _ _ hlt, h1, h2,
      closeSeq]

theorem emaAux_length (α p : ℚ) (xs : List ℚ) :
    (emaAux α p xs).length = xs.length := by
  induction xs generalizing p with
  | nil => rfl
  | cons x xs ih => simp [emaAux, ih]

theorem emaAux_rec (α : ℚ) (xs : List ℚ) : ∀ (p : ℚ) (i : ℕ) (y x : ℚ),
    (p :: emaAux α p xs)[i]? = some y → xs[i]? = some x →
    (emaAux α p xs)[i]? = some (α * x + (1 - α) * y) := by
  induction xs with
  | nil => intro p i y x _ h2; simp at h2
  | cons r rs ih =>
    intro p i y x h1 h2
    match i with
    | 0 =>
      simp at h1 h2
      subst h1; subst h2
      simp [emaAux]
    | Nat.succ j =>
      have h1' : ((α * r + (1 - α) * p) ::
          emaAux α (α * r + (1 - α) * p) rs)[j]? = some y := by
        simpa [emaAux] using h1
      have h2' : rs[j]? = some x := by simpa using h2
      simpa [emaAux] using ih (α * r + (1 - α) * p) j y x h1' h2'

theorem emaAux_const (α c : ℚ) (n : ℕ) :
    emaAux α c (List.replicate n c) = List.replicate n c := by
  induction n with
  | zero => rfl
  | succ m ih =>
    have h : α * c + (1 - α) * c = c := by ring
    show (α * c + (1 - α) * c) ::
        emaAux α (α * c + (1 - α) * c) (List.replicate m c)
      = List.replicate (m + 1) c
    rw [h, ih, List.replicate_succ]

theorem ewmMean_const (s : ℕ) (c : ℚ) (n : ℕ) :
    ewmMean s (List.replicate n c) = List.replicate n c := by
  cases n with
  | zero => rfl
  | succ m =>
    show c :: emaAux (2 / ((s : ℚ) + 1)) c (List.replicate m c)
      = List.replicate (m + 1) c
    rw [emaAux_const, List.replicate_succ]

/-! ### Claim theorems -/

/-- C2: for every price sequence `P` the OHLC synthesizer outputs sequences of
the same length as `P`, with `open`, `high`, `low` missing (not an error) at
index 0, and for every `i ≥ 1`: `close[i] = P[i]`, `open[i] = P[i-1]`,
`high[i] = max(P[i-1], P[i])`, `low[i] = min(P[i-1], P[i])`. -/
theorem ohlc_synthesizer_spec (P : List ℚ) :
    (shift1 P).length = P.length ∧ (rolling2max P).length = P.length ∧
    (rolling2min P).length = P.length ∧ (closeSeq P).length = P.length ∧
    (P ≠ [] → (shift1 P)[0]? = some none ∧ (rolling2max P)[0]? = some none ∧
      (rolling2min P)[0]? = some none) ∧
    (∀ i a b, P[i]? = some a → P[i + 1]? = some b →
      (closeSeq P)[i + 1]? = some b ∧ (shift1 P)[i + 1]? = some (some a) ∧
      (rolling2max P)[i + 1]? = some (some (max a b)) ∧
      (rolling2min P)[i + 1]? = some (some (min a b))) :=
  ⟨by simp [shift1], by simp [rolling2max], by simp [rolling2min], rfl,
    ohlc_head P, fun i a b h1 h2 => ohlc_cells P i a b h1 h2⟩

/-- Witness for C2 at the concrete price sequence `[3, 5]`. -/
theorem ohlc_synthesizer_spec_witness :
    (shift1 [(3 : ℚ), 5])[0]? = some none ∧
    (shift1 [(3 : ℚ), 5])[1]? = some (some 3) ∧
    (rolling2max [(3 : ℚ), 5])[1]? = some (some (max 3 5)) ∧
    (rolling2min [(3 : ℚ), 5])[1]? = some (some (min 3 5)) ∧
    (closeSeq [(3 : ℚ), 5])[1]? = some 5 :=
  ⟨((ohlc_synthesizer_spec [3, 5]).2.2.2.2.1 (by decide)).1,
   ((ohlc_synthesizer_spec [3, 5]).2.2.2.2.2 0 3 5 (by decide) (by decide)).2.1,
   ((ohlc_synthesizer_spec [3, 5]).2.2.2.2.2 0 3 5 (by decide) (by decide)).2.2.1,
   ((ohlc_synthesizer_spec [3, 5]).2.2.2.2.2 0 3 5 (by decide) (by decide)).2.2.2,
   ((ohlc_synthesizer_spec [3, 5]).2.2.2.2.2 0 3 5 (by decide) (by decide)).1⟩

/-- C8: wherever the candle fields are defined (`i ≥ 1`), the synthesized
candle satisfies `low ≤ open ≤ high` and `low ≤ close ≤ high`. -/
theorem candle_invariant (P : List ℚ) (i : ℕ) (a b : ℚ)
    (h1 : P[i]? = some a) (h2 : P[i + 1]? = some b) :
    (shift1 P)[i + 1]? = some (some a) ∧
    (rolling2max P)[i + 1]? = some (some (max a b)) ∧
    (rolling2min P)[i + 1]? = some (some (min a b)) ∧
    (closeSeq P)[i + 1]? = some b ∧
    min a b ≤ a ∧ a ≤ max a b ∧ min a b ≤ b ∧ b ≤ max a b := by
  obtain ⟨hc, ho, hh, hl⟩ := ohlc_cells P i a b h1 h2
  exact ⟨ho, hh, hl, hc, min_le_left a b, le_max_left a b,
    min_le_right a b, le_max_right a b⟩

/-- Witness for C8 at the concrete price sequence `[5, 3]`, index 1. -/
theorem candle_invariant_witness :
    (shift1 [(5 : ℚ), 3])[1]? = some (some 5) ∧
    (rolling2max [(5 : ℚ), 3])[1]? = some (some (max 5 3)) ∧
    (rolling2min [(5 : ℚ), 3])[1]? = some (some (min 5 3)) ∧
    (closeSeq [(5 : ℚ), 3])[1]? = some 3 ∧
    min (5 : ℚ) 3 ≤ 5 ∧ (5 : ℚ) ≤ max 5 3 ∧ min (5 : ℚ) 3 ≤ 3 ∧
      (3 : ℚ) ≤ max 5 3 :=
  candle_invariant [5, 3] 0 5 3 (by decide) (by decide)

/-- C3: for every non-empty close sequence and span `s`, the EMA has the same
length, starts at the first close, and obeys
`EMA[i] = α·close[i] + (1-α)·EMA[i-1]` with `α = 2/(s+1)` at every later
index; a constant sequence is a fixed point. -/
theorem ema_spec (s : ℕ) (closes : List ℚ) (hne : closes ≠ []) :
    (ewmMean s closes).length = closes.length ∧
    (ewmMean s closes)[0]? = closes[0]? ∧
    (∀ i y x, (ewmMean s closes)[i]? = some y → closes[i + 1]? = some x →
      (ewmMean s closes)[i + 1]? =
        some (2 / ((s : ℚ) + 1) * x + (1 - 2 / ((s : ℚ) + 1)) * y)) ∧
    (∀ c : ℚ, closes = List.replicate closes.length c →
      ewmMean s closes = closes) := by
  match closes with
  | [] => exact absurd rfl hne
  | x :: rest =>
    refine ⟨by simp [ewmMean, emaAux_length], by simp [ewmMean], ?_, ?_⟩
    · intro i y x' h1 h2
      have h1' : (x :: emaAux (2 / ((s : ℚ) + 1)) x rest)[i]? = some y := by
        simpa [ewmMean] using h1
      have h2' : rest[i]? = some x' := by simpa using h2
      simpa [ewmMean] using
        emaAux_rec (2 / ((s : ℚ) + 1)) rest x i y x' h1' h2'
    · intro c hc
      have h := ewmMean_const s c (x :: rest).length
      rw [← hc] at h
      exact h

/-- Witness for C3: span 12 on the constant sequence `[10, 10, 10]` (fixed
point) and the recurrence at `[1, 2]`. -/
theorem ema_spec_witness :
    ewmMean 12 [(10 : ℚ), 10, 10] = [(10 : ℚ), 10, 10] ∧
    (ewmMean 12 [(1 : ℚ), 2])[1]? =
      some (2 / ((12 : ℚ) + 1) * 2 + (1 - 2 / ((12 : ℚ) + 1)) * 1) :=
  ⟨(ema_spec 12 [10, 10, 10] (by decide)).2.2.2 10 (by decide),
   (ema_spec 12 [1, 2] (by decide)).2.2.1 0 1 2 (by decide) (by decide)⟩

/-- C4: for window `w ≥ 1`, the simple moving average is missing at every
index `i < w-1` and elsewhere equals the arithmetic mean of the trailing
window of exactly `w` closes. -/
theorem ma_spec (w : ℕ) (hw : 0 < w) (closes : List ℚ) :
    (rollingMean w closes).length = closes.length ∧
    (∀ i, i < closes.length → i + 1 < w →
      (rollingMean w closes)[i]? = some none) ∧
    (∀ i, i < closes.length → w ≤ i + 1 →
      ((closes.drop (i + 1 - w)).take w).length = w ∧
      (rollingMean w closes)[i]? =
        some (some (((closes.drop (i + 1 - w)).take w).sum / (w : ℚ)))) := by
  refine ⟨by simp [rollingMean], ?_, ?_⟩
  · intro i hi hlt
    simp [rollingMean, range_map_getElem _ _ _ hi, hlt]
  · intro i hi hge
    constructor
    · rw [List.length_take, List.length_drop]
      omega
    · simp [rollingMean, range_map_getElem _ _ _ hi, Nat.not_lt.mpr hge]

/-- Witness for C4: the spec's example, closes `[1..7]` with window 7:
`MA7[5]` is missing and `MA7[6] = 4`. -/
theorem ma_spec_witness :
    0 < 7 ∧ (rollingMean 7 [(1 : ℚ), 2, 3, 4, 5, 6, 7])[5]? = some none ∧
    (rollingMean 7 [(1 : ℚ), 2, 3, 4, 5, 6, 7])[6]? = some (some 4) :=
  ⟨by decide,
   (ma_spec 7 (by decide) [1, 2, 3, 4, 5, 6, 7]).2.1 5 (by decide) (by decide),
   ((ma_spec 7 (by decide) [1, 2, 3, 4, 5, 6, 7]).2.2 6 (by decide)
     (by decide)).2.trans (by norm_num)⟩

/-- C5: whenever the source is unreachable, returns a non-success status, or
its response lacks the price or the volume field, the historical builder
returns no data and the asset is absent from the result collection — no
partial result. -/
theorem hist_failure_excluded (sm se : Bool)
    (fetch : String → Option HistResponse) (assets : List String) (a : String)
    (hfail : fetch a = none ∨ ∃ r, fetch a = some r ∧
      (r.status ≠ 200 ∨ r.prices = none ∨ r.total_volumes = none)) :
    get_historical_data sm se (fetch a) = none ∧
    ∀ df : HistDF, (a, df) ∉ all_hist_data sm se fetch assets := by
  have hnone : get_historical_data sm se (fetch a) = none := by
    rcases hfail with h | ⟨r, hr, hcase⟩
    · rw [h]; rfl
    · rw [hr]
      rcases hcase with h1 | h2 | h3
      · simp [get_historical_data, h1]
      · simp [get_historical_data, h2]
      · simp [get_historical_data, h3]
  refine ⟨hnone, fun df hmem => ?_⟩
  obtain ⟨b, hb, hfb⟩ := List.mem_filterMap.mp hmem
  rcases hg : get_historical_data sm se (fetch b) with _ | d
  · rw [hg] at hfb; exact Option.noConfusion hfb
  · rw [hg] at hfb
    simp at hfb
    obtain ⟨hba, _⟩ := hfb
    subst hba
    rw [hnone] at hg
    exact Option.noConfusion hg

/-- Witness for C5: a response with status 500 and both fields missing:
`"btc"` is absent from the result of the fetch loop. -/
theorem hist_failure_excluded_witness :
    ((fun _ : String => some (⟨500, none, none⟩ : HistResponse)) "btc" = none ∨
      ∃ r, (fun _ : String =>
          some (⟨500, none, none⟩ : HistResponse)) "btc" = some r ∧
        (r.status ≠ 200 ∨ r.prices = none ∨ r.total_volumes = none)) ∧
    get_historical_data true true
      ((fun _ : String => some (⟨500, none, none⟩ : HistResponse)) "btc")
        = none ∧
    ∀ df : HistDF, ("btc", df) ∉
      all_hist_data true true
        (fun _ : String => some (⟨500, none, none⟩ : HistResponse)) ["btc"] :=
  ⟨Or.inr ⟨⟨500, none, none⟩, rfl, Or.inl (by decide)⟩,
   (hist_failure_excluded true true
      (fun _ : String => some (⟨500, none, none⟩ : HistResponse)) ["btc"] "btc"
      (Or.inr ⟨⟨500, none, none⟩, rfl, Or.inl (by decide)⟩)).1,
   (hist_failure_excluded true true
      (fun _ : String => some (⟨500, none, none⟩ : HistResponse)) ["btc"] "btc"
      (Or.inr ⟨⟨500, none, none⟩, rfl, Or.inl (by decide)⟩)).2⟩

/-- C6 counterexample: a successful response carrying both required fields
with empty series is NOT excluded: the builder returns a (zero-row) table and
the asset stays in the result set, unlike the other two failure kinds. -/
theorem hist_empty_series_counterexample :
    get_historical_data true true (some ⟨200, some [], some []⟩) ≠ none ∧
    (all_hist_data true true (fun _ => some ⟨200, some [], some []⟩)
        ["bitcoin"]).map Prod.fst = ["bitcoin"] :=
  ⟨by decide, rfl⟩

/-- C6 amended: on a successful response with both fields present but empty
series, the builder returns an empty (zero-row) table and the asset remains
in the result set; only SourceUnavailable and MalformedResponse exclude the
asset. -/
theorem hist_empty_series_included (sm se : Bool)
    (fetch : String → Option HistResponse) (a : String)
    (h : fetch a = some ⟨200, some [], some []⟩) :
    get_historical_data sm se (fetch a) =
      some { time := [], open_ := [], close := [], high := [], low := [],
             volume := [],
             ma7 := if sm then some [] else none,
             ma25 := if sm then some [] else none,
             ema12 := if se then some [] else none,
             ema26 := if se then some [] else none } ∧
    ∀ assets : List String, a ∈ assets →
      a ∈ (all_hist_data sm se fetch assets).map Prod.fst := by
  constructor
  · rw [h]; rfl
  · intro assets ha
    refine List.mem_map.mpr ⟨(a,
      { time := [], open_ := [], close := [], high := [], low := [],
        volume := [],
        ma7 := if sm then some [] else none,
        ma25 := if sm then some [] else none,
        ema12 := if se then some [] else none,
        ema26 := if se then some [] else none }),
      List.mem_filterMap.mpr ⟨a, ha, ?_⟩, rfl⟩
    rw [h]; rfl

/-- Witness for C6's amended claim at a one-asset catalog. -/
theorem hist_empty_series_included_witness :
    (fun _ : String => some (⟨200, some [], some []⟩ : HistResponse)) "btc"
      = some ⟨200, some [], some []⟩ ∧
    get_historical_data true true
      ((fun _ : String => some (⟨200, some [], some []⟩ : HistResponse)) "btc")
      = some { time := [], open_ := [], close := [], high := [], low := [],
               volume := [], ma7 := some [], ma25 := some [],
               ema12 := some [], ema26 := some [] } ∧
    "btc" ∈ (all_hist_data true true
      (fun _ : String => some (⟨200, some [], some []⟩ : HistResponse))
      ["btc"]).map Prod.fst :=
  ⟨rfl,
   (hist_empty_series_included true true
     (fun _ : String => some (⟨200, some [], some []⟩ : HistResponse))
     "btc" rfl).1,
   (hist_empty_series_included true true
     (fun _ : String => some (⟨200, some [], some []⟩ : HistResponse))
     "btc" rfl).2 ["btc"] (by decide)⟩

/-- C10: a successful response with both fields whose volume series is
shorter (or longer) than its price series still succeeds: every output column
has the price series' length, the volume cell is present positionally while
the volume series lasts and missing beyond its end, and extra volume entries
are ignored. -/
theorem hist_volume_alignment (sm se : Bool) (r : HistResponse)
    (ps tvs : List (ℕ × ℚ)) (h200 : r.status = 200) (hp : r.prices = some ps)
    (hv : r.total_volumes = some tvs) :
    ∃ df : HistDF, get_historical_data sm se (some r) = some df ∧
      df.close.length = ps.length ∧ df.volume.length = ps.length ∧
      (∀ i, i < ps.length → df.volume[i]? = some ((tvs.map Prod.snd)[i]?)) ∧
      (∀ i, tvs.length ≤ i → i < ps.length → df.volume[i]? = some none) := by
  obtain ⟨st, pr, tv⟩ := r
  dsimp only at h200 hp hv
  subst h200; subst hp; subst hv
  have hcell : ∀ i, i < ps.length →
      (alignVolume (ps.map Prod.snd).length (tvs.map Prod.snd))[i]?
        = some ((tvs.map Prod.snd)[i]?) := by
    intro i hi
    have hi' : i < (ps.map Prod.snd).length := by simpa using hi
    rw [alignVolume, range_map_getElem _ _ _ hi']
  refine ⟨_, rfl, by simp [closeSeq], by simp [alignVolume], hcell, ?_⟩
  intro i hlen hi
  rw [hcell i hi]
  have : (tvs.map Prod.snd)[i]? = none :=
    List.getElem?_eq_none (by simpa using hlen)
  rw [this]

/-- Witness for C10: three price samples but a single volume sample: the
volume column is `[some 10, none, none]`. -/
theorem hist_volume_alignment_witness :
    (⟨200, some [(0, 1), (1, 2), (2, 3)], some [(0, 10)]⟩ :
        HistResponse).status = 200 ∧
    ∃ df : HistDF, get_historical_data true true
        (some ⟨200, some [(0, 1), (1, 2), (2, 3)], some [(0, 10)]⟩)
        = some df ∧
      df.close.length = 3 ∧ df.volume.length = 3 ∧
      (∀ i, i < 3 →
        df.volume[i]? = some ((([(0, 10)] : List (ℕ × ℚ)).map Prod.snd)[i]?)) ∧
      (∀ i, 1 ≤ i → i < 3 → df.volume[i]? = some none) :=
  ⟨rfl, hist_volume_alignment true true _ [(0, 1), (1, 2), (2, 3)] [(0, 10)]
    rfl rfl rfl⟩

theorem buildTable_foldl (rest : List (String × LiveBuffer)) :
    ∀ t : AlignedLiveTable, t.rowIndex ≠ [] →
    rest.foldl (fun t ab => assignColumn t ab.1 ab.2) t =
      ⟨t.rowIndex, t.cols ++ rest.map (fun ab =>
        (ab.1, t.rowIndex.map (fun ts => lookupTime ts ab.2)))⟩ := by
  induction rest with
  | nil => intro t ht; simp
  | cons ab rest ih =>
    intro t ht
    have hassign : assignColumn t ab.1 ab.2 =
        ⟨t.rowIndex,
          t.cols ++ [(ab.1, t.rowIndex.map (fun ts => lookupTime ts ab.2))]⟩ := by
      rw [assignColumn, if_neg]
      rintro ⟨h1, _⟩
      exact ht h1
    rw [List.foldl_cons, hassign, ih _ (by simpa using ht)]
    simp

/-- C1 counterexample: asset A sampled only at time 2, asset B at times 1 and
2: the built table's row index is `[2]`, so timestamp 1 — sampled by B — is
not a row; the row index is not the union of the timestamps across buffers. -/
theorem aligned_table_union_counterexample :
    (buildTable [("A", [(2, 5)]), ("B", [(1, 7), (2, 8)])]).rowIndex = [2] ∧
    1 ∈ (([(1, 7), (2, 8)] : LiveBuffer).map Prod.fst) ∧
    1 ∉ (buildTable [("A", [(2, 5)]), ("B", [(1, 7), (2, 8)])]).rowIndex :=
  ⟨rfl, by decide, by decide⟩

/-- C1 amended: for strictly time-ordered buffers whose first asset's buffer
is non-empty, the table's row index is the FIRST asset's timestamp list (not
the union of all timestamps); the first column carries all of that asset's
prices, and each later asset's column is its buffer reindexed onto that row
index — a cell is defined at a row timestamp exactly if the asset sampled
then, and its samples at other timestamps are dropped. -/
theorem aligned_table_first_index (A : String) (bufA : LiveBuffer)
    (rest : List (String × LiveBuffer)) (hA : bufA ≠ [])
    (hsorted : ∀ ab ∈ (A, bufA) :: rest, (ab.2.map Prod.fst).Chain' (· < ·)) :
    buildTable ((A, bufA) :: rest) =
      ⟨bufA.map Prod.fst,
        (A, bufA.map (fun p => some p.2)) ::
          rest.map (fun ab =>
            (ab.1, (bufA.map Prod.fst).map (fun ts => lookupTime ts ab.2)))⟩ := by
  rw [buildTable, List.foldl_cons]
  have h0 : assignColumn ⟨[], []⟩ A bufA =
      ⟨bufA.map Prod.fst, [(A, bufA.map (fun p => some p.2))]⟩ := by
    rw [assignColumn, if_pos ⟨rfl, hA⟩]
    simp
  rw [h0, buildTable_foldl rest _ (by simpa using hA)]
  simp

/-- Witness for C1's amended claim: the spec's own scenario, A sampled at
times 1 and 2, B at time 1 only: rows `[1, 2]`, B defined at 1, absent at
2. -/
theorem aligned_table_first_index_witness :
    buildTable [("A", [(1, 10), (2, 11)]), ("B", [(1, 20)])] =
      ⟨[1, 2], [("A", [some 10, some 11]), ("B", [some 20, none])]⟩ :=
  (aligned_table_first_index "A" [(1, 10), (2, 11)] [("B", [(1, 20)])]
    (by decide)
    (by intro ab hab; fin_cases hab <;> simp [List.chain'_cons])).trans
    (by decide)

/-- C9: the aligned table is a pure function of the buffers' contents:
rebuilding it twice from the same unmodified buffers yields identical output,
there being no incremental state beyond the buffers themselves. -/
theorem aligned_table_rebuild_idempotent
    (buffers : List (String × LiveBuffer)) :
    buildTable buffers = buildTable buffers := rfl

/-- C7 counterexample: the source succeeds with price 0 — a returned price —
yet nothing is appended to the buffer because `if price:` treats 0 as falsy;
so an append does not occur for every returned price value. -/
theorem live_append_zero_counterexample :
    get_live_price (some (200, some 0)) = some 0 ∧
    tickBuffer 5 (some (200, some 0)) [] = [] :=
  ⟨rfl, by decide⟩

/-- C7 amended: on a tick, `{now, price}` is appended to the asset's buffer
exactly when the source returns a nonzero price; when the fetch fails,
returns no price, or returns the falsy price 0, the asset is skipped for the
tick with no placeholder inserted. -/
theorem live_append_spec (now : ℕ) (resp : Option (ℕ × Option ℚ))
    (buf : LiveBuffer) :
    (∀ q : ℚ, get_live_price resp = some q → q ≠ 0 →
      tickBuffer now resp buf = buf ++ [(now, q)]) ∧
    (get_live_price resp = none → tickBuffer now resp buf = buf) ∧
    (get_live_price resp = some 0 → tickBuffer now resp buf = buf) := by
  refine ⟨?_, ?_, ?_⟩
  · intro q hq hq0
    simp [tickBuffer, hq, truthy, hq0]
  · intro h
    simp [tickBuffer, h, truthy]
  · intro h
    simp [tickBuffer, h, truthy]

/-- Witness for C7's amended claim: price 2 at time 3 is appended to an empty
buffer. -/
theorem live_append_spec_witness :
    get_live_price (some (200, some 2)) = some 2 ∧ (2 : ℚ) ≠ 0 ∧
    tickBuffer 3 (some (200, some 2)) [] = [(3, 2)] :=
  ⟨rfl, by norm_num,
    (live_append_spec 3 (some (200, some 2)) []).1 2 rfl (by norm_num)⟩
